import Mathlib

/-!
Verification development for the AI_Code_Helper RAG pipeline.

Shallow embedding of the Python sources:
  * `rag_core/dashscope_embedding.py` / `build_index.py` — batch embedder
    (`CustomDashScopeEmbeddings.embed_documents`);
  * `rag_core/indexing_utils.py` — metadata extraction (`_extract_metadata`)
    and chunk-id assignment (`split_and_add_metadata`);
  * `rag_core/db_manager.py` — `DBManager.retrieve_documents`;
  * `rag_core/rag_engine.py` — `RAGEngine.configure` and the context
    formatting of `generate_answer`.

Strings from the Python side are modelled as `List Char` where character
level computation matters (paths, chunk texts, ids) and as `String`
elsewhere.  Paths follow POSIX conventions (`os.sep = '/'`), matching the
platform the program runs on.
-/

namespace AICodeHelper

/-! ## Batch embedder (`dashscope_embedding.py`, duplicated in `build_index.py`)

The service call `self.client.embeddings.create(model=..., input=batch)` is
modelled as a function `svc : List String → Except ε (List V)`: on success it
yields one vector per input text, on failure the raised exception.  The
Python loop `for i in range(0, len(texts), BATCH_SIZE)` slices the input
into consecutive batches of at most `BATCH_SIZE` texts. -/

/-- DashScope's hard per-request ceiling (`BATCH_SIZE = 10` in the source). -/
def BATCH_SIZE : Nat := 10

/-- The consecutive slices `texts[i:i+BATCH_SIZE]` produced by
`range(0, len(texts), BATCH_SIZE)`. -/
def mkBatches : List String → List (List String)
  | [] => []
  | t :: ts => ((t :: ts).take BATCH_SIZE) :: mkBatches ((t :: ts).drop BATCH_SIZE)
  termination_by ts => ts.length
  decreasing_by simp [BATCH_SIZE]; omega

/-- The accumulation loop of `embed_documents`: issue one request per batch,
extend `all_embeddings` with the batch's vectors, and re-raise the first
exception (`raise e`) without issuing further requests. -/
def embedLoop (svc : List String → Except ε (List V)) :
    List (List String) → Except ε (List V)
  | [] => .ok []
  | b :: bs =>
    match svc b with
    | .error e => .error e
    | .ok vs =>
      match embedLoop svc bs with
      | .error e => .error e
      | .ok rest => .ok (vs ++ rest)

/-- `CustomDashScopeEmbeddings.embed_documents`. -/
def embed_documents (svc : List String → Except ε (List V))
    (texts : List String) : Except ε (List V) :=
  embedLoop svc (mkBatches texts)

/-- Number of requests the loop issues to the service: one per batch up to
and including the first failing one. -/
def requestCount (svc : List String → Except ε (List V)) :
    List (List String) → Nat
  | [] => 0
  | b :: bs =>
    match svc b with
    | .error _ => 1
    | .ok _ => 1 + requestCount svc bs

/-! ## Chunk splitter

`split_and_add_metadata` delegates the actual text splitting to
`RecursiveCharacterTextSplitter` from the third-party `langchain` library,
whose code is not part of this repository.  The splitter is therefore
modelled from the spec (§4.1): recursive separator-based splitting from the
most structural separator down to raw character cuts, then reassembly of
adjacent pieces into windows of at most `S` characters with up to `O`
characters of overlap carried over from the previous window. -/

/-- Index of the first occurrence of `pat` in `t` (Python `str.find` /
the `in` operator). -/
def findOcc (pat : List Char) : List Char → Option Nat
  | [] => if pat.isEmpty then some 0 else none
  | c :: cs =>
    if pat.isPrefixOf (c :: cs) then some 0
    else (findOcc pat cs).map (· + 1)

/-- Modelled from the spec: split `t` at each occurrence of the separator,
keeping the separator attached to the piece before it, so that the pieces
concatenate back to `t`.  `fuel` bounds the recursion; `t.length` is always
enough since each step consumes at least one character. -/
def splitKeep (sep : List Char) : Nat → List Char → List (List Char)
  | 0, t => [t]
  | fuel + 1, t =>
    match findOcc sep t with
    | none => [t]
    | some i => t.take (i + sep.length) :: splitKeep sep fuel (t.drop (i + sep.length))

/-- Modelled from the spec: when every separator is exhausted and a piece
still exceeds `S`, split at the raw character boundary into blocks of `S`
characters. -/
def rawChunks (S : Nat) : Nat → List Char → List (List Char)
  | _, [] => []
  | 0, t => [t]
  | fuel + 1, t => t.take S :: rawChunks S fuel (t.drop S)

/-- Modelled from the spec: recursive separator-based splitting.  A text
within the size bound stays whole; otherwise it is split on the current
separator and each piece is recursively split with the finer separators;
with no separators left, raw character blocks are produced. -/
def recSplit (S : Nat) : List (List Char) → List Char → List (List Char)
  | [], t => rawChunks S t.length t
  | sep :: rest, t =>
    if t.length ≤ S then [t]
    else (splitKeep sep t.length t).flatMap (recSplit S rest)

/-- Modelled from the spec: greedily reassemble adjacent pieces into
windows of at most `S` characters (`cur` is the window under
construction), preserving original order. -/
def windowsGo (S : Nat) (cur : List Char) : List (List Char) → List (List Char)
  | [] => [cur]
  | p :: ps =>
    if cur.length + p.length ≤ S then windowsGo S (cur ++ p) ps
    else cur :: windowsGo S p ps

/-- Modelled from the spec: window reassembly entry point. -/
def windows (S : Nat) : List (List Char) → List (List Char)
  | [] => []
  | p :: ps => windowsGo S p ps

/-- The last `n` elements of a list. -/
def lastN (n : Nat) (l : List α) : List α := l.drop (l.length - n)

/-- Modelled from the spec: prefix every window after the first with up to
`O` characters of overlap taken from the end of the previous window,
recording each chunk as `(overlap length, chunk text)`. -/
def overlapGo (O : Nat) (prev : List Char) : List (List Char) → List (Nat × List Char)
  | [] => []
  | w :: ws => ((lastN O prev).length, lastN O prev ++ w) :: overlapGo O w ws

/-- Modelled from the spec: the first window carries no overlap. -/
def addOverlap (O : Nat) : List (List Char) → List (Nat × List Char)
  | [] => []
  | w :: ws => (0, w) :: overlapGo O w ws

/-- `CHUNK_SIZE = 1000` from `rag_core/config.py`. -/
def CHUNK_SIZE : Nat := 1000

/-- `CHUNK_OVERLAP = 200` from `rag_core/config.py`. -/
def CHUNK_OVERLAP : Nat := 200

/-- The separator list built in `split_and_add_metadata`: the four ReST
structural separators followed by blank line, newline and space. -/
def separators : List (List Char) :=
  [("\n=======================================\n").data,
   ("\n---------------------------------------\n").data,
   ("\n~~~~~~~~~~~~~~~~~~~~~~~~~~~~~~~~~~~~~~~\n").data,
   ("\n.. code-block:: python\n").data,
   "\n\n".data, "\n".data, " ".data]

/-- Modelled from the spec: the full chunking of one document's text —
recursive splitting, window reassembly, overlap attachment. -/
def docChunks (S O : Nat) (seps : List (List Char)) (t : List Char) :
    List (Nat × List Char) :=
  addOverlap O (windows S (recSplit S seps t))

/-- Remove each chunk's recorded overlap prefix and concatenate. -/
def reconstruct (cs : List (Nat × List Char)) : List Char :=
  (cs.map (fun oc => oc.2.drop oc.1)).flatten

/-! ## Metadata extraction and chunk ids (`rag_core/indexing_utils.py`) -/

/-- Python `str.replace(pat, rep)`: replace occurrences left to right,
non-overlapping, continuing after each replacement.  `fuel` bounds the
recursion; `t.length` is always enough for a non-empty pattern. -/
def pyReplace (pat rep : List Char) : Nat → List Char → List Char
  | 0, t => t
  | fuel + 1, t =>
    match findOcc pat t with
    | none => t
    | some i => t.take i ++ rep ++ pyReplace pat rep fuel (t.drop (i + pat.length))

/-- Python's `pat in t` substring test. -/
def pyContains (pat t : List Char) : Bool := (findOcc pat t).isSome

/-- `os.path.basename` on a POSIX path: everything after the last `'/'`. -/
def basename (p : List Char) : List Char :=
  (p.reverse.takeWhile (fun c => c != '/')).reverse

/-- The `doc_type` classification values. -/
inductive DocType
  | API_REFERENCE
  | TUTORIAL_GUIDE
  | DEVELOPMENT_GUIDE
  | GENERAL
deriving DecidableEq

/-- A Python value that is either a string or `None` (the `api_name`
metadata entry is initialised to `None` and sometimes overwritten). -/
inductive PyStr
  | none
  | str (s : List Char)
deriving DecidableEq

/-- A loaded document: its `metadata['source']` path and `page_content`. -/
structure Doc where
  source_path : List Char
  page_content : List Char
deriving DecidableEq

/-- The metadata record `_extract_metadata` builds for one document. -/
structure BaseMeta where
  source : List Char
  doc_type : DocType
  api_name : PyStr
deriving DecidableEq

/-- `_extract_metadata`: the Python builds
`{source: basename(path), doc_type: "GENERAL", api_name: None}` and then
updates it through an `if`/`elif` chain on the path.
`normalized_path = source_path.replace(os.sep, '/')` is the identity on
POSIX (`os.sep = '/'`), so the raw path is used throughout.  The
`try`/`except` around the `api_name` derivation is dead: `str.replace`
never raises. -/
def extract_metadata (d : Doc) : BaseMeta :=
  let filename := basename d.source_path
  if pyContains ("reference/api").data d.source_path then
    { source := filename, doc_type := .API_REFERENCE,
      api_name := .str (pyReplace (".rst.txt").data [] filename.length filename) }
  else if pyContains ("getting_started").data d.source_path
      || pyContains ("user_guide").data d.source_path then
    { source := filename, doc_type := .TUTORIAL_GUIDE, api_name := .none }
  else if pyContains ("development").data d.source_path then
    { source := filename, doc_type := .DEVELOPMENT_GUIDE, api_name := .none }
  else
    { source := filename, doc_type := .GENERAL, api_name := .none }

/-- Decimal digits of `n`, most significant first (empty for `n = 0`);
`fuel ≥ n` is always enough. -/
def natDigitsAux : Nat → Nat → List Char
  | 0, _ => []
  | fuel + 1, n =>
    if n = 0 then [] else natDigitsAux fuel (n / 10) ++ [Nat.digitChar (n % 10)]

/-- Python `str(n)` for a natural number. -/
def pyNatStr (n : Nat) : List Char :=
  if n = 0 then ['0'] else natDigitsAux n n

/-- Numeric value of a big-endian digit string (used to invert `pyNatStr`). -/
def digitVal (c : Char) : Nat := c.toNat - 48

/-- Fold a big-endian digit string back into a number. -/
def digitsVal (l : List Char) : Nat := l.foldl (fun acc c => acc * 10 + digitVal c) 0

/-- The prefix the f-string
`f"{final_metadata.get('api_name', final_metadata.get('source', 'chunk'))}"`
actually produces: the key `'api_name'` is always present in the dict
(`_extract_metadata` stores `None` or a string under it), so `dict.get`
returns the stored value and the `'source'` fallback is dead code; the
f-string renders a stored `None` as the four characters `"None"`. -/
def chunkIdPrefix (m : BaseMeta) : List Char :=
  match m.api_name with
  | .str s => s
  | .none => ("None").data

/-- `chunk_id` as built in `split_and_add_metadata`:
`f"{prefix}_{len(all_chunks)}"`. -/
def mkChunkId (pre : List Char) (counter : Nat) : List Char :=
  pre ++ '_' :: pyNatStr counter

/-- One produced chunk: its text and enriched metadata. -/
structure Chunk where
  text : List Char
  meta : BaseMeta
  chunk_id : List Char
deriving DecidableEq

/-- The inner `for chunk in chunks` loop: append each chunk to
`all_chunks`, stamping it with `chunk_id = f"{prefix}_{len(all_chunks)}"`
evaluated at the moment of the append. -/
def addChunks (m : BaseMeta) : List (Nat × List Char) → List Chunk → List Chunk
  | [], acc => acc
  | c :: cs, acc =>
    addChunks m cs
      (acc ++ [{ text := c.2, meta := m,
                 chunk_id := mkChunkId (chunkIdPrefix m) acc.length }])

/-- The outer document loop of `split_and_add_metadata`: extract metadata,
split the document (splitter modelled from the spec, see `docChunks`), skip
documents whose split is empty (`if not chunks: continue`), otherwise stamp
and accumulate the chunks. -/
def splitGo : List Doc → List Chunk → List Chunk
  | [], acc => acc
  | d :: ds, acc =>
    let m := extract_metadata d
    let cs := docChunks CHUNK_SIZE CHUNK_OVERLAP separators d.page_content
    if cs.isEmpty then splitGo ds acc
    else splitGo ds (addChunks m cs acc)

/-- `split_and_add_metadata`: the whole build-run chunk list. -/
def split_and_add_metadata (docs : List Doc) : List Chunk := splitGo docs []

/-- The claim's reading of the `api_name` derivation: strip the known
multi-part extension `.rst.txt` from the end of the filename, leaving a
filename that does not carry the suffix unchanged. -/
def specStripExt (f : List Char) : List Char :=
  if (".rst.txt").data.isSuffixOf f then f.take (f.length - 8) else f

/-! ## Retrieval (`rag_core/db_manager.py`) and the orchestrator
(`rag_core/rag_engine.py`) -/

/-- A retrieved document as `_format_context` sees it: page content plus
the two metadata entries it reads.  `Option` models a missing dict key
(`doc.metadata.get(key, default)`). -/
structure RetrievedDoc where
  page_content : String
  m_source : Option String
  m_api_name : Option String

/-- The loaded Chroma store, abstracted at the only interface
`retrieve_documents` uses: `similarity_search(query, k)` either returns a
document list or raises.  `DBManager.__init__` leaves `self.db = None` on a
missing key or any initialisation failure, hence the `Option` at the call
site. -/
def ChromaDB : Type := String → Nat → Except String (List RetrievedDoc)

/-- `DBManager.retrieve_documents`: `if not self.db: return []`, then
`similarity_search` with any raised exception caught and turned into
`[]`. -/
def retrieve_documents (db : Option ChromaDB) (query : String) (k : Nat) :
    List RetrievedDoc :=
  match db with
  | Option.none => []
  | Option.some f =>
    match f query k with
    | .ok docs => docs
    | .error _ => []

/-- One block of `RAGEngine._format_context`. -/
def formatDoc (doc : RetrievedDoc) : String :=
  "### 来源: " ++ doc.m_source.getD "未知来源"
    ++ " (API: " ++ doc.m_api_name.getD "通用" ++ ")\n"
    ++ "```text\n" ++ doc.page_content ++ "\n```"

/-- `RAGEngine._format_context`: the blocks joined by the visible
separator. -/
def format_context (docs : List RetrievedDoc) : String :=
  String.intercalate "\n\n---\n\n" (docs.map formatDoc)

/-- The sentinel `generate_answer` substitutes for an empty context. -/
def noDocsSentinel : String := "未找到任何相关的知识文档。"

/-- The context string `generate_answer` hands to the LLM chain:
`if not context: context = "未找到任何相关的知识文档。"`. -/
def contextFor (docs : List RetrievedDoc) : String :=
  let c := format_context docs
  if c = "" then noDocsSentinel else c

/-- The mutable configuration of `RAGEngine` (all `None` after
`__init__`); `chain = prompt | llm` is determined by the model name and
base url, so it is modelled as that pair. -/
structure EngineState where
  llm_model_name : Option String
  llm_base_url : Option String
  k_value : Option Nat
  chain : Option (String × String)

/-- `RAGEngine.__init__`: no configuration, no chain. -/
def initEngine : EngineState :=
  { llm_model_name := Option.none, llm_base_url := Option.none,
    k_value := Option.none, chain := Option.none }

/-- `RAGEngine.configure`: skip when all three values match the current
configuration and a chain exists; otherwise store the new values and
rebuild the Ollama client and chain (counted by the returned number, `0`
or `1`).  `ok` is whether the client construction succeeds; on failure the
code sets `chain = None` and raises (`success = false`). -/
def configure (ok : Bool) (m u : String) (k : Nat) (s : EngineState) :
    EngineState × Bool × Nat :=
  if s.llm_model_name = Option.some m ∧ s.llm_base_url = Option.some u
      ∧ s.k_value = Option.some k ∧ s.chain.isSome then
    (s, true, 0)
  else
    let s1 := { s with llm_model_name := Option.some m,
                       llm_base_url := Option.some u, k_value := Option.some k }
    if ok then ({ s1 with chain := Option.some (m, u) }, true, 1)
    else ({ s1 with chain := Option.none }, false, 1)

/-- `n` successive `configure` calls with the same arguments, totalling the
client initialisations. -/
def configureMany (ok : Bool) (m u : String) (k : Nat) :
    Nat → EngineState → EngineState × Nat
  | 0, s => (s, 0)
  | n + 1, s =>
    let r := configure ok m u k s
    let rest := configureMany ok m u k n r.1
    (rest.1, r.2.2 + rest.2)

theorem mkBatches_flatten (ts : List String) : (mkBatches ts).flatten = ts := by
  induction ts using mkBatches.induct with
  | case1 => simp [mkBatches]
  | case2 t ts ih => rw [mkBatches]; simp [ih]

theorem mkBatches_length_le (ts : List String) :
    ∀ b ∈ mkBatches ts, b.length ≤ BATCH_SIZE := by
  induction ts using mkBatches.induct with
  | case1 => simp [mkBatches]
  | case2 t ts ih =>
    rw [mkBatches]
    intro b hb
    rcases List.mem_cons.1 hb with h | h
    · subst h; simp
    · exact ih b h

theorem mkBatches_count (ts : List String) :
    (mkBatches ts).length = (ts.length + BATCH_SIZE - 1) / BATCH_SIZE := by
  induction ts using mkBatches.induct with
  | case1 => simp [mkBatches, BATCH_SIZE]
  | case2 t ts ih =>
    rw [mkBatches]
    simp only [List.length_cons, ih, List.length_drop]
    simp only [BATCH_SIZE]
    omega

theorem embedLoop_ok (svc : List String → Except ε (List V))
    (f : String → V) (h : ∀ b, svc b = .ok (b.map f)) (bs : List (List String)) :
    embedLoop svc bs = .ok (bs.flatten.map f) := by
  induction bs with
  | nil => simp [embedLoop]
  | cons b bs ih => simp [embedLoop, h b, ih]

theorem requestCount_ok (svc : List String → Except ε (List V))
    (f : String → V) (h : ∀ b, svc b = .ok (b.map f)) (bs : List (List String)) :
    requestCount svc bs = bs.length := by
  induction bs with
  | nil => rfl
  | cons b bs ih => simp [requestCount, h b, ih]; omega

theorem embedLoop_first_error (svc : List String → Except ε (List V))
    (bs : List (List String)) (j : Nat) (hj : j < bs.length) (e : ε)
    (hfail : svc (bs.get ⟨j, hj⟩) = .error e)
    (hok : ∀ i (hi : i < j), (svc (bs.get ⟨i, Nat.lt_trans hi hj⟩)).isOk) :
    embedLoop svc bs = .error e ∧ requestCount svc bs = j + 1 := by
  induction bs generalizing j with
  | nil => simp at hj
  | cons b bs ih =>
    cases j with
    | zero =>
      simp only [List.get] at hfail
      simp [embedLoop, requestCount, hfail]
    | succ j =>
      have h0 := hok 0 (Nat.succ_pos j)
      simp only [List.get] at h0 hfail
      obtain ⟨vs, hvs⟩ : ∃ vs, svc b = .ok vs := by
        cases hb : svc b with
        | error e => rw [hb] at h0; simp [Except.isOk, Except.toBool] at h0
        | ok vs => exact ⟨vs, rfl⟩
      have ih' := ih j (Nat.lt_of_succ_lt_succ hj) hfail
        (fun i hi => by
          have := hok (i + 1) (Nat.succ_lt_succ hi)
          simpa [List.get] using this)
      simp [embedLoop, requestCount, hvs, ih'.1, ih'.2]
      omega

theorem splitKeep_flatten (sep : List Char) (fuel : Nat) (t : List Char) :
    (splitKeep sep fuel t).flatten = t := by
  induction fuel generalizing t with
  | zero => simp [splitKeep]
  | succ fuel ih =>
    rw [splitKeep]
    cases findOcc sep t with
    | none => simp
    | some i => simp [ih]

theorem rawChunks_flatten (S fuel : Nat) (t : List Char) :
    (rawChunks S fuel t).flatten = t := by
  induction fuel generalizing t with
  | zero => cases t <;> simp [rawChunks]
  | succ fuel ih =>
    cases t with
    | nil => simp [rawChunks]
    | cons c cs => simp [rawChunks, ih]

theorem flatMap_flatten {g : List Char → List (List Char)} (l : List (List Char))
    (h : ∀ p ∈ l, (g p).flatten = p) : (l.flatMap g).flatten = l.flatten := by
  induction l with
  | nil => simp
  | cons p ps ih =>
    simp only [List.flatMap_cons, List.flatten_append, List.flatten_cons]
    rw [h p (List.mem_cons_self p ps), ih (fun q hq => h q (List.mem_cons_of_mem p hq))]

theorem recSplit_flatten (S : Nat) (seps : List (List Char)) (t : List Char) :
    (recSplit S seps t).flatten = t := by
  induction seps generalizing t with
  | nil => exact rawChunks_flatten S t.length t
  | cons sep rest ih =>
    rw [recSplit]
    by_cases h : t.length ≤ S
    · simp [h]
    · simp only [h, if_false]
      rw [flatMap_flatten _ (fun p _ => ih p), splitKeep_flatten]

theorem windowsGo_flatten (S : Nat) (cur : List Char) (ps : List (List Char)) :
    (windowsGo S cur ps).flatten = cur ++ ps.flatten := by
  induction ps generalizing cur with
  | nil => simp [windowsGo]
  | cons p ps ih =>
    rw [windowsGo]
    by_cases h : cur.length + p.length ≤ S
    · simp [h, ih]
    · simp [h, ih]

theorem windows_flatten (S : Nat) (ps : List (List Char)) :
    (windows S ps).flatten = ps.flatten := by
  cases ps with
  | nil => rfl
  | cons p ps => rw [windows, windowsGo_flatten]; simp

theorem overlapGo_reconstruct (O : Nat) (prev : List Char) (ws : List (List Char)) :
    reconstruct (overlapGo O prev ws) = ws.flatten := by
  induction ws generalizing prev with
  | nil => rfl
  | cons w ws ih =>
    rw [overlapGo]
    simp only [reconstruct, List.map_cons, List.flatten_cons]
    rw [List.drop_left, ← reconstruct, ih]

theorem addOverlap_reconstruct (O : Nat) (ws : List (List Char)) :
    reconstruct (addOverlap O ws) = ws.flatten := by
  cases ws with
  | nil => rfl
  | cons w ws =>
    rw [addOverlap]
    simp only [reconstruct, List.map_cons, List.flatten_cons, List.drop_zero]
    rw [← reconstruct, overlapGo_reconstruct]

/-- C3: concatenating the chunks of a document in order, after removing
each chunk's declared overlap with its predecessor, reconstructs the
document's original text exactly (splitter modelled from spec §4.1; run
with the repository's separators, `CHUNK_SIZE` and `CHUNK_OVERLAP`). -/
theorem docChunks_reconstruct (t : List Char) :
    reconstruct (docChunks CHUNK_SIZE CHUNK_OVERLAP separators t) = t := by
  rw [docChunks, addOverlap_reconstruct, windows_flatten, recSplit_flatten]

/-- C1: `embed_documents` issues exactly `⌈N/10⌉` requests, each a
consecutive slice of at most 10 texts in input order (the slices
concatenate back to the input), and when every request succeeds — the
service returning one vector per text, in request order — the result is
`.ok` of exactly `N` vectors with `output[i]` the service's vector for
`input[i]` (i.e. the input list mapped through the service's per-text
embedding). -/
theorem embed_documents_batches_correct (svc : List String → Except ε (List V))
    (f : String → V) (texts : List String)
    (hsvc : ∀ b, svc b = .ok (b.map f)) :
    requestCount svc (mkBatches texts)
        = (texts.length + BATCH_SIZE - 1) / BATCH_SIZE
      ∧ (∀ b ∈ mkBatches texts, b.length ≤ BATCH_SIZE)
      ∧ (mkBatches texts).flatten = texts
      ∧ embed_documents svc texts = .ok (texts.map f) := by
  refine ⟨?_, mkBatches_length_le texts, mkBatches_flatten texts, ?_⟩
  · rw [requestCount_ok svc f hsvc, mkBatches_count]
  · rw [embed_documents, embedLoop_ok svc f hsvc, mkBatches_flatten]

/-- Witness for C1: 23 texts (the spec's scenario) yield 3 requests of
sizes 10, 10, 3 and 23 output vectors in input order. -/
theorem embed_documents_batches_correct_witness :
    requestCount (ε := Unit) (fun b => .ok (b.map String.length))
        (mkBatches (List.replicate 23 "x")) = 3
      ∧ embed_documents (ε := Unit) (fun b => .ok (b.map String.length))
        (List.replicate 23 "x") = .ok (List.replicate 23 1) := by
  have h := embed_documents_batches_correct (ε := Unit)
    (fun b => .ok (b.map String.length)) String.length
    (List.replicate 23 "x") (fun _ => rfl)
  refine ⟨?_, ?_⟩
  · rw [h.1]; rfl
  · rw [h.2.2.2]; rfl

/-- C2: if some batch request fails — the `j`-th slice raises `e` while all
earlier slices succeed — then `embed_documents` returns exactly that error
(no vector list, the completed slices' vectors discarded) and stops after
the failing request: exactly `j + 1` requests are issued, so the failed
slice is never retried. -/
theorem embed_documents_fail_fast (svc : List String → Except ε (List V))
    (texts : List String) (j : Nat) (hj : j < (mkBatches texts).length) (e : ε)
    (hfail : svc ((mkBatches texts).get ⟨j, hj⟩) = .error e)
    (hok : ∀ i (hi : i < j),
      (svc ((mkBatches texts).get ⟨i, Nat.lt_trans hi hj⟩)).isOk) :
    embed_documents svc texts = .error e
      ∧ requestCount svc (mkBatches texts) = j + 1 :=
  embedLoop_first_error svc (mkBatches texts) j hj e hfail hok

/-- Witness for C2: 11 texts, the first batch request fails — the call
returns that error after exactly one request. -/
theorem embed_documents_fail_fast_witness :
    embed_documents (V := Nat) (fun _ => .error "boom")
        (List.replicate 11 "x") = .error "boom"
      ∧ requestCount (V := Nat) (fun _ => .error "boom")
        (mkBatches (List.replicate 11 "x")) = 0 + 1 := by
  have hj : 0 < (mkBatches (List.replicate 11 "x")).length := by
    rw [mkBatches_count]; simp [BATCH_SIZE]
  exact embed_documents_fail_fast (V := Nat) (fun _ => .error "boom")
    (List.replicate 11 "x") 0 hj "boom" rfl (fun i hi => absurd hi (Nat.not_lt_zero i))

theorem digitVal_digitChar : ∀ d, d < 10 → digitVal (Nat.digitChar d) = d := by decide

theorem digitChar_ne_underscore : ∀ d, d < 10 → Nat.digitChar d ≠ '_' := by decide

theorem digitsVal_natDigitsAux (fuel : Nat) :
    ∀ n, n ≤ fuel → digitsVal (natDigitsAux fuel n) = n := by
  induction fuel with
  | zero => intro n hn; interval_cases n; rfl
  | succ fuel ih =>
    intro n hn
    rw [natDigitsAux]
    by_cases h0 : n = 0
    · simp [h0, digitsVal]
    · simp only [h0, if_false]
      have hdiv : n / 10 ≤ fuel := by
        have hlt : n / 10 < n := Nat.div_lt_self (Nat.pos_of_ne_zero h0) (by omega)
        omega
      simp only [digitsVal, List.foldl_append, List.foldl_cons, List.foldl_nil]
      rw [← digitsVal, ih (n / 10) hdiv, digitVal_digitChar (n % 10) (Nat.mod_lt n (by omega))]
      omega

theorem pyNatStr_injective {a b : Nat} (h : pyNatStr a = pyNatStr b) : a = b := by
  have key : ∀ n, digitsVal (pyNatStr n) = n := by
    intro n
    rw [pyNatStr]
    by_cases h0 : n = 0
    · simp [h0, digitsVal, digitVal]
    · simp only [h0, if_false]
      exact digitsVal_natDigitsAux n n (Nat.le_refl n)
  rw [← key a, ← key b, h]

theorem natDigitsAux_ne_underscore (fuel : Nat) :
    ∀ n, ∀ c ∈ natDigitsAux fuel n, c ≠ '_' := by
  induction fuel with
  | zero => intro n c hc; simp [natDigitsAux] at hc
  | succ fuel ih =>
    intro n c hc
    rw [natDigitsAux] at hc
    by_cases h0 : n = 0
    · simp [h0] at hc
    · simp only [h0, if_false, List.mem_append, List.mem_singleton] at hc
      rcases hc with hc | hc
      · exact ih (n / 10) c hc
      · subst hc; exact digitChar_ne_underscore (n % 10) (Nat.mod_lt n (by omega))

theorem pyNatStr_ne_underscore (n : Nat) : ∀ c ∈ pyNatStr n, c ≠ '_' := by
  intro c hc
  rw [pyNatStr] at hc
  by_cases h0 : n = 0
  · simp [h0] at hc; subst hc; decide
  · simp only [h0, if_false] at hc
    exact natDigitsAux_ne_underscore n n c hc

theorem takeWhile_append_stop (l : List Char) (y : Char) (ys : List Char)
    (p : Char → Bool) (hl : ∀ a ∈ l, p a) (hy : p y = false) :
    (l ++ y :: ys).takeWhile p = l := by
  simp [List.takeWhile_append_of_pos hl, List.takeWhile, hy]

theorem mkChunkId_counter_inj {p1 p2 : List Char} {n1 n2 : Nat}
    (h : mkChunkId p1 n1 = mkChunkId p2 n2) : n1 = n2 := by
  have hrev : (pyNatStr n1).reverse ++ '_' :: p1.reverse
      = (pyNatStr n2).reverse ++ '_' :: p2.reverse := by
    have := congrArg List.reverse h
    simpa [mkChunkId] using this
  have hside : ∀ n : Nat, ∀ a ∈ (pyNatStr n).reverse, (a != '_') = true := by
    intro n a ha
    have := pyNatStr_ne_underscore n a (List.mem_reverse.1 ha)
    simpa using this
  have htake := congrArg (List.takeWhile (fun c => c != '_')) hrev
  rw [takeWhile_append_stop _ _ _ _ (hside n1) (by simp),
      takeWhile_append_stop _ _ _ _ (hside n2) (by simp)] at htake
  exact pyNatStr_injective (List.reverse_injective htake)

theorem addChunks_ids (m : BaseMeta) (cs : List (Nat × List Char)) :
    ∀ acc : List Chunk,
      (∀ i (h : i < acc.length), ∃ p, (acc[i]).chunk_id = mkChunkId p i) →
      ∀ i (h : i < (addChunks m cs acc).length),
        ∃ p, ((addChunks m cs acc)[i]).chunk_id = mkChunkId p i := by
  induction cs with
  | nil => intro acc hacc; exact hacc
  | cons c cs ih =>
    intro acc hacc
    rw [addChunks]
    apply ih
    intro i h
    rcases Nat.lt_or_ge i acc.length with hi | hi
    · rw [List.getElem_append_left hi]
      exact hacc i hi
    · have h2 : i < acc.length + 1 := by simpa using h
      have hlen : i = acc.length := by omega
      subst hlen
      rw [List.getElem_concat_length _ _ _ rfl]
      exact ⟨chunkIdPrefix m, rfl⟩

theorem splitGo_ids (ds : List Doc) :
    ∀ acc : List Chunk,
      (∀ i (h : i < acc.length), ∃ p, (acc[i]).chunk_id = mkChunkId p i) →
      ∀ i (h : i < (splitGo ds acc).length),
        ∃ p, ((splitGo ds acc)[i]).chunk_id = mkChunkId p i := by
  induction ds with
  | nil => intro acc hacc; exact hacc
  | cons d ds ih =>
    intro acc hacc
    rw [splitGo]
    by_cases he :
        (docChunks CHUNK_SIZE CHUNK_OVERLAP separators d.page_content).isEmpty
    · simp only [he, if_true]
      exact ih acc hacc
    · simp only [he, if_false]
      exact ih _ (addChunks_ids _ _ acc hacc)

/-- C5: all chunk ids produced by one run of `split_and_add_metadata` are
pairwise distinct — the counter suffix after the final underscore is the
chunk's global position, and the decimal suffix contains no underscore, so
ids with different counters can never coincide. -/
theorem chunk_ids_unique (docs : List Doc) :
    ((split_and_add_metadata docs).map Chunk.chunk_id).Pairwise (· ≠ ·) := by
  rw [List.pairwise_map]
  rw [List.pairwise_iff_get]
  intro i j hij heq
  obtain ⟨p1, hp1⟩ := splitGo_ids docs [] (by intro i h; simp at h) i.1 i.2
  obtain ⟨p2, hp2⟩ := splitGo_ids docs [] (by intro i h; simp at h) j.1 j.2
  simp only [split_and_add_metadata, List.get_eq_getElem] at heq
  rw [hp1, hp2] at heq
  exact absurd (mkChunkId_counter_inj heq) (Nat.ne_of_lt hij)

/-- C4: the claimed fallback to the document's source file name never
happens.  For a document with no `api_name` (here
`user_guide/intro.rst.txt`), `final_metadata.get('api_name', ...)` returns
the stored `None` — the key is always present — and the f-string renders it,
so the produced `chunk_id` is `"None_0"`, not the claimed
`"intro.rst.txt_0"`. -/
theorem chunk_id_prefix_is_none_for_non_api_doc :
    ((split_and_add_metadata
        [⟨("user_guide/intro.rst.txt").data, ("hello").data⟩]).map Chunk.chunk_id
      = [("None_0").data])
    ∧ ("None_0").data ≠ ("intro.rst.txt_0").data := by
  exact ⟨by decide, by decide⟩

/-- Counterexample to C6: on `reference/api/pandas.rst.txt.orig` the code
classifies as `API_REFERENCE` but derives
`api_name = "pandas.orig"` — `str.replace` removes the interior
`.rst.txt` occurrence — whereas the claim's "filename with its multi-part
extension stripped" leaves `pandas.rst.txt.orig` unchanged (no such
suffix). -/
theorem extract_metadata_strip_cex :
    ((extract_metadata ⟨("reference/api/pandas.rst.txt.orig").data,
        ("A").data⟩).doc_type = DocType.API_REFERENCE)
    ∧ ((extract_metadata ⟨("reference/api/pandas.rst.txt.orig").data,
        ("A").data⟩).api_name = PyStr.str (("pandas.orig").data))
    ∧ ((extract_metadata ⟨("reference/api/pandas.rst.txt.orig").data,
        ("A").data⟩).api_name
      ≠ PyStr.str (specStripExt (basename
          (("reference/api/pandas.rst.txt.orig").data)))) := by
  exact ⟨by decide, by decide, by decide⟩

/-- C6 (amended): the rules are evaluated in priority order on the path
(`os.sep`-normalisation is the identity on POSIX): the API-reference marker
wins and sets `api_name` to the filename with every occurrence of
`.rst.txt` removed (not just a trailing extension); then the
getting-started/user-guide markers; then the development marker; otherwise
`GENERAL`; and `source` is always the file's base name. -/
theorem extract_metadata_rules (d : Doc) :
    ((extract_metadata d).source = basename d.source_path)
    ∧ (pyContains ("reference/api").data d.source_path = true →
        (extract_metadata d).doc_type = DocType.API_REFERENCE
        ∧ (extract_metadata d).api_name
            = PyStr.str (pyReplace (".rst.txt").data []
                (basename d.source_path).length (basename d.source_path)))
    ∧ (pyContains ("reference/api").data d.source_path = false →
        (pyContains ("getting_started").data d.source_path
          || pyContains ("user_guide").data d.source_path) = true →
        (extract_metadata d).doc_type = DocType.TUTORIAL_GUIDE)
    ∧ (pyContains ("reference/api").data d.source_path = false →
        (pyContains ("getting_started").data d.source_path
          || pyContains ("user_guide").data d.source_path) = false →
        pyContains ("development").data d.source_path = true →
        (extract_metadata d).doc_type = DocType.DEVELOPMENT_GUIDE)
    ∧ (pyContains ("reference/api").data d.source_path = false →
        (pyContains ("getting_started").data d.source_path
          || pyContains ("user_guide").data d.source_path) = false →
        pyContains ("development").data d.source_path = false →
        (extract_metadata d).doc_type = DocType.GENERAL) := by
  refine ⟨?_, ?_, ?_, ?_, ?_⟩
  · unfold extract_metadata
    by_cases h1 : pyContains ("reference/api").data d.source_path
    · simp [h1]
    · by_cases h2 : (pyContains ("getting_started").data d.source_path
          || pyContains ("user_guide").data d.source_path) = true
      · simp [h1, h2]
      · by_cases h3 : pyContains ("development").data d.source_path
        · simp [h1, h2, h3]
        · simp [h1, h2, h3]
  · intro h1; unfold extract_metadata; simp [h1]
  · intro h1 h2; unfold extract_metadata; simp [h1, h2]
  · intro h1 h2 h3; unfold extract_metadata; simp [h1, h2, h3]
  · intro h1 h2 h3; unfold extract_metadata; simp [h1, h2, h3]

/-- Witness for C6 (amended): the spec's own example filename
`foo.bar.rst.txt` under `reference/api` yields `API_REFERENCE` and
`api_name = "foo.bar"`. -/
theorem extract_metadata_rules_witness :
    pyContains ("reference/api").data
        (("reference/api/foo.bar.rst.txt").data) = true
    ∧ (extract_metadata ⟨("reference/api/foo.bar.rst.txt").data,
        ("A").data⟩).doc_type = DocType.API_REFERENCE
    ∧ (extract_metadata ⟨("reference/api/foo.bar.rst.txt").data,
        ("A").data⟩).api_name = PyStr.str (("foo.bar").data) := by
  have h := (extract_metadata_rules ⟨("reference/api/foo.bar.rst.txt").data,
    ("A").data⟩).2.1 (by decide)
  exact ⟨by decide, h.1, h.2.trans (by decide)⟩

/-- Counterexample to C10: for `reference/api/a.rst.txt.old` the filename
does not carry the `.rst.txt` suffix, so the claim says `api_name` equals
the full filename `a.rst.txt.old`; the code instead removes the interior
occurrence and produces `a.old`. -/
theorem api_name_replace_cex :
    ((extract_metadata ⟨("reference/api/a.rst.txt.old").data,
        ("A").data⟩).api_name = PyStr.str (("a.old").data))
    ∧ ((extract_metadata ⟨("reference/api/a.rst.txt.old").data,
        ("A").data⟩).api_name ≠ PyStr.str (("a.rst.txt.old").data)) := by
  exact ⟨by decide, by decide⟩

/-- C10 (amended): for every API-reference path, `api_name` is
unconditionally non-null and equals the base filename with every
occurrence of `.rst.txt` removed (Python `str.replace`, left-to-right,
non-overlapping). -/
theorem api_name_always_some (d : Doc)
    (h : pyContains ("reference/api").data d.source_path = true) :
    (extract_metadata d).api_name
        = PyStr.str (pyReplace (".rst.txt").data []
            (basename d.source_path).length (basename d.source_path))
    ∧ (extract_metadata d).api_name ≠ PyStr.none := by
  unfold extract_metadata
  simp [h]

/-- Witness for C10 (amended): a standard API-reference file has a
non-null `api_name`. -/
theorem api_name_always_some_witness :
    pyContains ("reference/api").data (("reference/api/x.rst.txt").data) = true
    ∧ (extract_metadata ⟨("reference/api/x.rst.txt").data,
        ("c").data⟩).api_name ≠ PyStr.none :=
  ⟨by decide, (api_name_always_some ⟨("reference/api/x.rst.txt").data,
      ("c").data⟩ (by decide)).2⟩

theorem configure_skip (ok : Bool) (m u : String) (k : Nat) (s : EngineState)
    (h1 : s.llm_model_name = Option.some m) (h2 : s.llm_base_url = Option.some u)
    (h3 : s.k_value = Option.some k) (h4 : s.chain.isSome) :
    configure ok m u k s = (s, true, 0) := by
  rw [configure, if_pos ⟨h1, h2, h3, h4⟩]

theorem configureMany_skip (ok : Bool) (m u : String) (k : Nat) (s : EngineState)
    (h1 : s.llm_model_name = Option.some m) (h2 : s.llm_base_url = Option.some u)
    (h3 : s.k_value = Option.some k) (h4 : s.chain.isSome) :
    ∀ n, configureMany ok m u k n s = (s, 0) := by
  intro n
  induction n with
  | zero => rfl
  | succ n ih =>
    rw [configureMany, configure_skip ok m u k s h1 h2 h3 h4, ih]
    rfl

/-- C7: starting from a freshly constructed engine, any number `n ≥ 1` of
`configure` calls with the same model name, base url and `k` builds the
Ollama client and chain exactly once (assuming the first construction
succeeds); every later identical call is a no-op that leaves the state
untouched and performs zero reinitialisations. -/
theorem configure_connects_once (m u : String) (k : Nat) (n : Nat) (hn : 1 ≤ n) :
    (configureMany true m u k n initEngine).2 = 1
    ∧ (configureMany true m u k n initEngine).1
        = (configure true m u k initEngine).1
    ∧ ∀ ok, configure ok m u k (configure true m u k initEngine).1
        = ((configure true m u k initEngine).1, true, 0) := by
  have hfirst : configure true m u k initEngine
      = ({ llm_model_name := Option.some m, llm_base_url := Option.some u,
           k_value := Option.some k, chain := Option.some (m, u) }, true, 1) := by
    rw [configure, if_neg (by simp [initEngine]), if_pos rfl]
  obtain ⟨n, rfl⟩ : ∃ j, n = j + 1 := ⟨n - 1, by omega⟩
  have hskip := configureMany_skip true m u k
    { llm_model_name := Option.some m, llm_base_url := Option.some u,
      k_value := Option.some k, chain := Option.some (m, u) }
    rfl rfl rfl rfl n
  refine ⟨?_, ?_, ?_⟩
  · rw [configureMany, hfirst]
    simp [hskip]
  · rw [configureMany, hfirst]
    simp [hskip, hfirst]
  · intro ok
    rw [hfirst]
    exact configure_skip ok m u k _ rfl rfl rfl rfl

/-- Witness for C7: the spec scenario — three identical reconfigurations
perform exactly one connection. -/
theorem configure_connects_once_witness :
    (1 ≤ 3)
    ∧ (configureMany true "llama3.1" "http://localhost:11434" 3 3 initEngine).2 = 1 :=
  ⟨by omega, (configure_connects_once "llama3.1" "http://localhost:11434" 3 3 (by omega)).1⟩

/-- C8: a query against an unavailable store (`self.db = None`, the state
after a failed or never-run build) or an empty collection returns an empty
result instead of raising, and `generate_answer` then substitutes the
non-empty "no relevant documents found" sentinel for the empty context. -/
theorem empty_retrieval_gets_sentinel :
    (∀ (q : String) (k : Nat), retrieve_documents Option.none q k = [])
    ∧ contextFor [] = noDocsSentinel
    ∧ noDocsSentinel ≠ ""
    ∧ ∀ (f : ChromaDB) (q : String) (k : Nat), f q k = .ok [] →
        retrieve_documents (Option.some f) q k = []
        ∧ contextFor (retrieve_documents (Option.some f) q k) = noDocsSentinel := by
  refine ⟨fun q k => rfl, by decide, by decide, ?_⟩
  intro f q k h
  have hempty : retrieve_documents (Option.some f) q k = [] := by
    rw [retrieve_documents, h]
  exact ⟨hempty, by rw [hempty]; decide⟩

/-- Witness for C8: a store whose similarity search finds nothing makes
the orchestrator hand the sentinel to the prompt. -/
theorem empty_retrieval_gets_sentinel_witness :
    ((fun _ _ => .ok []) : ChromaDB) "df.merge" 3 = .ok []
    ∧ contextFor (retrieve_documents
        (Option.some ((fun _ _ => .ok []) : ChromaDB)) "df.merge" 3)
      = noDocsSentinel :=
  ⟨rfl, (empty_retrieval_gets_sentinel.2.2.2
      ((fun _ _ => .ok []) : ChromaDB) "df.merge" 3 rfl).2⟩

/-- C9: `retrieve_documents` is total at its public interface: with an
uninitialised store it returns `[]`, a raising similarity search is caught
and turned into `[]`, and a successful search's list is returned as is —
no exception ever propagates. -/
theorem retrieve_documents_total :
    (∀ (q : String) (k : Nat), retrieve_documents Option.none q k = [])
    ∧ (∀ (f : ChromaDB) (q : String) (k : Nat) (e : String),
        f q k = .error e → retrieve_documents (Option.some f) q k = [])
    ∧ (∀ (f : ChromaDB) (q : String) (k : Nat) (docs : List RetrievedDoc),
        f q k = .ok docs → retrieve_documents (Option.some f) q k = docs) := by
  refine ⟨fun q k => rfl, ?_, ?_⟩
  · intro f q k e h
    rw [retrieve_documents, h]
  · intro f q k docs h
    rw [retrieve_documents, h]

/-- Witness for C9: a similarity search that raises is absorbed into an
empty result. -/
theorem retrieve_documents_total_witness :
    ((fun _ _ => .error "collection missing") : ChromaDB) "q" 3
        = .error "collection missing"
    ∧ retrieve_documents
        (Option.some ((fun _ _ => .error "collection missing") : ChromaDB)) "q" 3 = [] :=
  ⟨rfl, retrieve_documents_total.2.1
      ((fun _ _ => .error "collection missing") : ChromaDB) "q" 3
      "collection missing" rfl⟩

end AICodeHelper







